import Mathlib

/-!
Shallow embedding of the giraffics renderer and its scene-description
language (src/color.rs, src/coord.rs, src/canvas.rs, src/scene.rs,
src/scene/object/shape.rs, src/scene/object/light.rs, src/lang/lexer.rs,
src/lang/parser.rs).

Modelling conventions:
* Rust `f64` is modelled as `ℝ` in the geometry / lighting / color code.
  In the lexer and parser numbers are only carried around, never computed
  with, so there they are modelled as `ℚ` (keeping token equality decidable,
  as Rust's derived `PartialEq` is).
* `usize` is modelled as `ℕ`, `isize` as `ℤ` (no claim approaches the
  word-size boundaries).
* `f64::INFINITY`, used by `Sphere::intersect_ray` as a miss sentinel and by
  `Scene::render` as the `t_max` bound, is modelled with `EReal` (`⊤`).
* Rust's saturating float-to-int cast `x as u8` is: truncate toward zero,
  clamp into `[0, 255]` (`NaN` has no counterpart in `ℝ`).
-/

/- ===================== src/color.rs ===================== -/

/-- `Color([u8; 4])`; the four bytes are, in order, red, green, blue, alpha
(cf. the accessors `red`, `green`, `blue`, `alpha` in src/color.rs). -/
structure Color where
  red : ℕ
  green : ℕ
  blue : ℕ
  alpha : ℕ
deriving DecidableEq

/-- `Color::rgb` (src/color.rs:19): alpha is fixed at 255. -/
def Color.rgb (red green blue : ℕ) : Color := ⟨red, green, blue, 255⟩

/-- `Color::rgba` (src/color.rs:24). -/
def Color.rgba (red green blue alpha : ℕ) : Color := ⟨red, green, blue, alpha⟩

/-- `mul_with_ceiling` (src/color.rs:93): `sum = a as f64 * b`; if
`sum > u8::MAX` return `u8::MAX`, else `sum as u8` (truncate toward zero,
clamp negatives to 0 — `Int.toNat` of the floor). -/
noncomputable def mul_with_ceiling (a : ℕ) (b : ℝ) : ℕ :=
  if (a : ℝ) * b > 255 then 255 else (⌊(a : ℝ) * b⌋).toNat

/-- `Color::scale` (src/color.rs:44): every channel, alpha included, is put
through `mul_with_ceiling`. -/
noncomputable def Color.scale (c : Color) (scalar : ℝ) : Color :=
  Color.rgba (mul_with_ceiling c.red scalar) (mul_with_ceiling c.green scalar)
    (mul_with_ceiling c.blue scalar) (mul_with_ceiling c.alpha scalar)

/-- Rust `x as u8` on an `f64` (saturating cast), used by
`Color::from_rgb_tuple`. -/
noncomputable def f64_as_u8 (x : ℝ) : ℕ :=
  if x < 0 then 0 else if x > 255 then 255 else (⌊x⌋).toNat

/-- `Color::from_rgb_tuple` (src/color.rs:53): builds via `Color::rgb`, so
alpha starts at 255. -/
noncomputable def Color.from_rgb_tuple (t : ℝ × ℝ × ℝ) : Color :=
  Color.rgb (f64_as_u8 t.1) (f64_as_u8 t.2.1) (f64_as_u8 t.2.2)

/- ===================== src/coord.rs ===================== -/

/-- `WorldCoordinate` (src/coord.rs): a real 3-vector. -/
structure WorldCoordinate where
  x : ℝ
  y : ℝ
  z : ℝ

/-- `ORIGIN` (src/coord.rs:3). -/
def ORIGIN : WorldCoordinate := ⟨0, 0, 0⟩

/-- `WorldCoordinate::dot` (src/coord.rs:24). -/
def WorldCoordinate.dot (a b : WorldCoordinate) : ℝ :=
  a.x * b.x + a.y * b.y + a.z * b.z

/-- `WorldCoordinate::abs` (src/coord.rs:28): Euclidean norm. -/
noncomputable def WorldCoordinate.abs (a : WorldCoordinate) : ℝ :=
  Real.sqrt (a.x * a.x + a.y * a.y + a.z * a.z)

/-- `impl Add for WorldCoordinate` (src/coord.rs:57). -/
def WorldCoordinate.add (a b : WorldCoordinate) : WorldCoordinate :=
  ⟨a.x + b.x, a.y + b.y, a.z + b.z⟩

/-- `impl Sub for WorldCoordinate` (src/coord.rs:39). -/
def WorldCoordinate.sub (a b : WorldCoordinate) : WorldCoordinate :=
  ⟨a.x - b.x, a.y - b.y, a.z - b.z⟩

/-- `impl Mul<f64> for WorldCoordinate` (src/coord.rs:47). -/
def WorldCoordinate.smul (a : WorldCoordinate) (s : ℝ) : WorldCoordinate :=
  ⟨a.x * s, a.y * s, a.z * s⟩

/-- `impl Div<f64> for WorldCoordinate` (src/coord.rs:72). -/
noncomputable def WorldCoordinate.sdiv (a : WorldCoordinate) (s : ℝ) : WorldCoordinate :=
  ⟨a.x / s, a.y / s, a.z / s⟩

instance : Add WorldCoordinate := ⟨WorldCoordinate.add⟩

instance : Sub WorldCoordinate := ⟨WorldCoordinate.sub⟩

instance : HMul WorldCoordinate ℝ WorldCoordinate := ⟨WorldCoordinate.smul⟩

noncomputable instance : HDiv WorldCoordinate ℝ WorldCoordinate := ⟨WorldCoordinate.sdiv⟩

/- ===================== src/canvas.rs ===================== -/

/-- `Canvas` (src/canvas.rs:12): width and height are `usize`. -/
structure Canvas where
  width : ℕ
  height : ℕ
deriving DecidableEq

/-- `Canvas::width` (src/canvas.rs:50), the accessor method. -/
def Canvas.widthFn (c : Canvas) : ℕ := c.width

/-- `Canvas::height` (src/canvas.rs:53): the accessor method in the source
returns `self.width`, not `self.height` — embedded faithfully. -/
def Canvas.heightFn (c : Canvas) : ℕ := c.width

/-- `CanvasCoordinate` (src/canvas.rs:125): integer 2D coordinate centered
on the image middle. -/
structure CanvasCoordinate where
  x : ℤ
  y : ℤ
deriving DecidableEq

/-- `ScreenCoordinate` (src/canvas.rs:115): top-left origin, or off-screen. -/
inductive ScreenCoordinate where
  | OffScreen : ScreenCoordinate
  | OnScreen : (x : ℕ) → (y : ℕ) → ScreenCoordinate
deriving DecidableEq

/-- `out_of_bounds` (src/canvas.rs:107). -/
def out_of_bounds (x y width height : ℤ) : Bool :=
  decide (x < 0) || decide (y < 0) || decide (x ≥ width) || decide (y ≥ height)

/-- `impl Converts<CanvasCoordinate, ScreenCoordinate> for Canvas`
(src/canvas.rs:86): `x = width/2 + cx`, `y = height/2 - cy` (the vertical
flip), bounds-checked; `x as usize` is `Int.toNat` (nonnegative here). -/
def Canvas.convert (c : Canvas) (coord : CanvasCoordinate) : ScreenCoordinate :=
  let x : ℤ := ((c.width / 2 : ℕ) : ℤ) + coord.x
  let y : ℤ := ((c.height / 2 : ℕ) : ℤ) - coord.y
  if out_of_bounds x y (c.width : ℤ) (c.height : ℤ) then ScreenCoordinate.OffScreen
  else ScreenCoordinate.OnScreen x.toNat y.toNat

/-- `EachCanvasCoordinate` (src/canvas.rs:136): the iterator state. The
source struct has no `min_y` field; `min_y` is only used to seed `next_y`. -/
structure EachCanvasCoordinate where
  min_x : ℤ
  max_x : ℤ
  max_y : ℤ
  next_x : ℤ
  next_y : ℤ
  finished : Bool

/-- `Canvas::iter_pixels` (src/canvas.rs:57): `max_x = width as isize / 2`,
`min_x = -max_x`, likewise for y; cursor starts at `(min_x, min_y)`. -/
def Canvas.iter_pixels (c : Canvas) : EachCanvasCoordinate :=
  let mx : ℤ := (c.width : ℤ) / 2
  let my : ℤ := (c.height : ℤ) / 2
  { min_x := -mx, max_x := mx, max_y := my, next_x := -mx, next_y := -my, finished := false }

/-- `EachCanvasCoordinate::next` (src/canvas.rs:148): emit the cursor, then
advance x; on `next_x >= max_x` wrap to `min_x` and advance y; on
`next_y >= max_y` mark finished. -/
def EachCanvasCoordinate.next (s : EachCanvasCoordinate) :
    Option CanvasCoordinate × EachCanvasCoordinate :=
  if s.finished then (none, s) else
  let coord := CanvasCoordinate.mk s.next_x s.next_y
  let nx := s.next_x + 1
  if nx ≥ s.max_x then
    let ny := s.next_y + 1
    if ny ≥ s.max_y then
      (some coord, { s with next_x := s.min_x, next_y := ny, finished := true })
    else
      (some coord, { s with next_x := s.min_x, next_y := ny })
  else (some coord, { s with next_x := nx })

/-- Runs the iterator to exhaustion, fuelled. The fuel passed by
`Canvas.coords` strictly exceeds the number of items the iterator can emit
(at most `max (width, 1) * max (height, 1)`), so the fuelled run produces
exactly the sequence the `Iterator for EachCanvasCoordinate` impl yields. -/
def emit_all : EachCanvasCoordinate → ℕ → List CanvasCoordinate
  | _, 0 => []
  | s, fuel + 1 =>
    match s.next with
    | (none, _) => []
    | (some c, s2) => c :: emit_all s2 fuel

/-- The full coordinate sequence of `Canvas::iter_pixels`, i.e. the
coordinates `Scene::render` iterates (src/scene.rs:105). -/
def Canvas.coords (c : Canvas) : List CanvasCoordinate :=
  emit_all c.iter_pixels ((c.width + 1) * (c.height + 1) + 1)

/-- The 4-byte RGBA store of `Canvas::put_pixel`
(`pixel.copy_from_slice(color.as_array())`, src/canvas.rs:38). `List.set`
leaves the list unchanged out of range; in every use here the index is in
range (Rust would panic otherwise). -/
def write4 (frame : List ℕ) (i : ℕ) (color : Color) : List ℕ :=
  (((frame.set i color.red).set (i + 1) color.green).set (i + 2) color.blue).set
    (i + 3) color.alpha

/-- `Canvas::put_pixel` (src/canvas.rs:30): convert to screen coordinates;
write 4 bytes at `(y * width + x) * 4` when on-screen, otherwise do nothing. -/
def Canvas.put_pixel (c : Canvas) (frame : List ℕ) (coord : CanvasCoordinate)
    (color : Color) : List ℕ :=
  match c.convert coord with
  | ScreenCoordinate.OnScreen x y => write4 frame ((y * c.width + x) * 4) color
  | ScreenCoordinate.OffScreen => frame

/- ===================== src/scene/object/shape.rs ===================== -/

/-- `Sphere` (src/scene/object/shape.rs:5). -/
structure Sphere where
  radius : ℝ
  center : WorldCoordinate
  color : Color

/-- `Sphere::intersect_ray` (src/scene/object/shape.rs:12): quadratic
ray/sphere intersection. On `disc < 0` the source returns
`(f64::INFINITY, f64::INFINITY)`, modelled as `(⊤, ⊤) : EReal × EReal`;
otherwise both roots, as (coerced) reals. -/
noncomputable def Sphere.intersect_ray (s : Sphere) (camera viewport : WorldCoordinate) :
    EReal × EReal :=
  let r := s.radius
  let vec_co := camera - s.center
  let a := viewport.dot viewport
  let b := 2 * vec_co.dot viewport
  let c := vec_co.dot vec_co - r * r
  let disc := b * b - 4 * a * c
  if disc < 0 then (⊤, ⊤)
  else ((((-b + Real.sqrt disc) / (2 * a) : ℝ) : EReal),
        (((-b - Real.sqrt disc) / (2 * a) : ℝ) : EReal))

/- ===================== src/scene/object/light.rs ===================== -/

/-- `Light` (src/scene/object/light.rs:4). -/
inductive Light where
  | Point : (position : WorldCoordinate) → (intensity : ℝ) → Light
  | Direction : (direction : WorldCoordinate) → (intensity : ℝ) → Light
  | Ambient : (intensity : ℝ) → Light

/-- `directional_intensity` (src/scene/object/light.rs:56): the
cosine-normalized Lambertian term, zero when `n_dot_l ≤ 0`. -/
noncomputable def directional_intensity (direction surface_normal : WorldCoordinate)
    (intensity : ℝ) : ℝ :=
  let n_dot_l := surface_normal.dot direction
  if n_dot_l > 0 then intensity * n_dot_l / (surface_normal.abs * direction.abs)
  else 0

/-- `Light::illumination_at_point` (src/scene/object/light.rs:19). -/
noncomputable def Light.illumination_at_point (l : Light) (point surface_normal : WorldCoordinate) : ℝ :=
  match l with
  | Light.Ambient intensity => intensity
  | Light.Direction direction intensity =>
      directional_intensity direction surface_normal intensity
  | Light.Point position intensity =>
      directional_intensity (position - point) surface_normal intensity

/- ===================== src/scene.rs ===================== -/

/-- `ViewPort` (src/scene.rs:11): all three fields are `usize`. -/
structure ViewPort where
  depth : ℕ
  width : ℕ
  height : ℕ

/-- `impl Default for ViewPort` (src/scene.rs:17). -/
def ViewPort.default : ViewPort := ⟨1, 1, 1⟩

/-- `Scene` (src/scene.rs:27). The `title : String` field carries no
behaviour relevant to the claims and is omitted. -/
structure Scene where
  camera_position : WorldCoordinate
  viewport : ViewPort
  canvas : Canvas
  spheres : List Sphere
  background_color : Color
  lights : List Light

/-- One pass of the sphere loop body inside `Scene::trace_ray`
(src/scene.rs:69): test `t1` then `t2` against `[t_min, t_max]` and the
current champion, tracking `(closest_t, closest_sphere)`. -/
noncomputable def closest_step (camera d : WorldCoordinate) (t_min t_max : EReal)
    (acc : EReal × Option Sphere) (sphere : Sphere) : EReal × Option Sphere :=
  let ts := sphere.intersect_ray camera d
  let acc1 := if t_min ≤ ts.1 ∧ ts.1 ≤ t_max ∧ ts.1 < acc.1 then (ts.1, some sphere) else acc
  if t_min ≤ ts.2 ∧ ts.2 ≤ t_max ∧ ts.2 < acc1.1 then (ts.2, some sphere) else acc1

/-- The sphere loop of `Scene::trace_ray` (src/scene.rs:67): starts from
`closest_t = f64::INFINITY` (`⊤`) and no sphere. -/
noncomputable def closest_hit (spheres : List Sphere) (camera d : WorldCoordinate)
    (t_min t_max : EReal) : EReal × Option Sphere :=
  spheres.foldl (closest_step camera d t_min t_max) (⊤, none)

/-- `Scene::compute_lighting` (src/scene.rs:97): sum of the per-light
contributions. -/
noncomputable def Scene.compute_lighting (scene : Scene) (point normal : WorldCoordinate) : ℝ :=
  (scene.lights.map (fun l => l.illumination_at_point point normal)).sum

/-- `Scene::trace_ray` (src/scene.rs:66). When a sphere was selected,
`closest_t` is the coercion of a real root (a miss contributes `⊤`, which
never beats the strict `<` test), so `EReal.toReal` recovers the `f64`
value the source multiplies with. -/
noncomputable def Scene.trace_ray (scene : Scene) (viewport_coord : WorldCoordinate)
    (t_min t_max : EReal) : Color :=
  let hit := closest_hit scene.spheres scene.camera_position viewport_coord t_min t_max
  match hit.2 with
  | some s =>
      let point := scene.camera_position + viewport_coord * hit.1.toReal
      let normal_dir := point - s.center
      let normal := normal_dir / normal_dir.abs
      let light_intensity := scene.compute_lighting point normal
      s.color.scale light_intensity
  | none => scene.background_color

/-- `impl Converts<CanvasCoordinate, WorldCoordinate> for Scene`
(src/scene.rs:117): note the source divides by the accessor
`self.canvas.height()`, which returns the canvas width. -/
noncomputable def Scene.convert (scene : Scene) (coord : CanvasCoordinate) : WorldCoordinate :=
  let x := (coord.x : ℝ) * ((scene.viewport.width : ℝ) / (scene.canvas.widthFn : ℝ))
  let y := (coord.y : ℝ) * ((scene.viewport.height : ℝ) / (scene.canvas.heightFn : ℝ))
  let z := (scene.viewport.depth : ℝ)
  ⟨x, y, z⟩

/-- `Scene::render` (src/scene.rs:104): for every iterated canvas
coordinate, project to the viewport, trace with `t_min = 1`,
`t_max = f64::INFINITY`, and put the pixel. -/
noncomputable def Scene.render (scene : Scene) (frame : List ℕ) : List ℕ :=
  scene.canvas.coords.foldl
    (fun fr coord =>
      let viewport_coord := scene.convert coord
      let color := scene.trace_ray viewport_coord (((1 : ℝ) : EReal)) ⊤
      scene.canvas.put_pixel fr coord color)
    frame

/- ===================== src/lang/lexer.rs ===================== -/

/-- `Token` (src/lang/lexer.rs:3). Number payloads come from decimal source
literals, so they are modelled as `ℚ`, keeping the derived `PartialEq`
decidable. The `Error` variant is the unrecognized-character token. -/
inductive Token where
  | Identifier : String → Token
  | Number : ℚ → Token
  | VString : String → Token
  | NewLine : Token
  | Equal : Token
  | Comma : Token
  | LParen : Token
  | RParen : Token
  | LBrace : Token
  | RBrace : Token
  | Error : Token
deriving DecidableEq

/- ===================== src/lang/parser.rs ===================== -/

/-- `Value` (src/lang/parser.rs:213). -/
inductive Value where
  | Num : ℚ → Value
  | VString : String → Value
  | Tuple : ℚ × ℚ × ℚ → Value
deriving DecidableEq

/-- `Assignment` (src/lang/parser.rs:207). -/
structure Assignment where
  name : String
  value : Value

/-- `RawDefinition` (src/lang/parser.rs:202). -/
structure RawDefinition where
  def_type : String
  assignments : List Assignment

/-- `Definition` (src/lang/parser.rs:16). -/
inductive Definition where
  | PointLight : (intensity : ℚ) → (position : ℚ × ℚ × ℚ) → Definition
  | DirectionLight : (intensity : ℚ) → (direction : ℚ × ℚ × ℚ) → Definition
  | AmbientLight : (intensity : ℚ) → Definition
  | Sphere : (color : ℚ × ℚ × ℚ) → (center : ℚ × ℚ × ℚ) → (radius : ℚ) → Definition
  | Window : (title : Option String) → (width : Option ℚ) → (height : Option ℚ) → Definition
deriving DecidableEq

/-- `Definition::numeric_value` (src/lang/parser.rs:171). -/
def Definition.numeric_value (value : Value) (property : String) : Except String ℚ :=
  match value with
  | Value.Num n => Except.ok n
  | _ => Except.error ("Expected number for property " ++ property)

/-- `Definition::string_value` (src/lang/parser.rs:181). -/
def Definition.string_value (value : Value) (property : String) : Except String String :=
  match value with
  | Value.VString s => Except.ok s
  | _ => Except.error ("Expected string for property " ++ property)

/-- `Definition::tuple_value` (src/lang/parser.rs:191). -/
def Definition.tuple_value (value : Value) (property : String) : Except String (ℚ × ℚ × ℚ) :=
  match value with
  | Value.Tuple t => Except.ok t
  | _ => Except.error ("Expected tuple for property " ++ property)

/-- The `for assignment in raw.assignments` loop of
`Definition::window_from_raw` (src/lang/parser.rs:55), threading the three
`Option` slots; an unknown property aborts with an error. -/
def collect_window_fields :
    List Assignment → Option String × Option ℚ × Option ℚ →
    Except String (Option String × Option ℚ × Option ℚ)
  | [], acc => Except.ok acc
  | a :: rest, (title, width, height) =>
    match a.name with
    | "width" => do
        let n ← Definition.numeric_value a.value "width"
        collect_window_fields rest (title, some n, height)
    | "height" => do
        let n ← Definition.numeric_value a.value "height"
        collect_window_fields rest (title, width, some n)
    | "title" => do
        let s ← Definition.string_value a.value "title"
        collect_window_fields rest (some s, width, height)
    | _ => Except.error "Expected properties: width, height, title"

/-- `Definition::window_from_raw` (src/lang/parser.rs:50). -/
def Definition.window_from_raw (raw : RawDefinition) : Except String Definition :=
  (collect_window_fields raw.assignments (none, none, none)).map
    (fun acc => Definition.Window acc.1 acc.2.1 acc.2.2)

/-- The `for assignment in raw.assignments` loop of
`Definition::light_from_raw` (src/lang/parser.rs:82), threading the four
`Option` slots (`type`, `intensity`, `position`, `direction`); an unknown
property aborts with an error. -/
def collect_light_fields :
    List Assignment →
    Option String × Option ℚ × Option (ℚ × ℚ × ℚ) × Option (ℚ × ℚ × ℚ) →
    Except String (Option String × Option ℚ × Option (ℚ × ℚ × ℚ) × Option (ℚ × ℚ × ℚ))
  | [], acc => Except.ok acc
  | a :: rest, (ty, intensity, position, direction) =>
    match a.name with
    | "type" => do
        let s ← Definition.string_value a.value "type"
        collect_light_fields rest (some s, intensity, position, direction)
    | "intensity" => do
        let n ← Definition.numeric_value a.value "intensity"
        collect_light_fields rest (ty, some n, position, direction)
    | "position" => do
        let t ← Definition.tuple_value a.value "position"
        collect_light_fields rest (ty, intensity, some t, direction)
    | "direction" => do
        let t ← Definition.tuple_value a.value "direction"
        collect_light_fields rest (ty, intensity, position, some t)
    | _ => Except.error "Expected properties: type, intensity, position, direction"

/-- The validation tail of `Definition::light_from_raw`
(src/lang/parser.rs:98): require `type` and `intensity`, then dispatch on
the light kind with its mutual-exclusion rules. -/
def validate_light :
    Option String × Option ℚ × Option (ℚ × ℚ × ℚ) × Option (ℚ × ℚ × ℚ) →
    Except String Definition
  | (ty, intensity, position, direction) =>
    match ty, intensity with
    | some t, some i =>
      if t = "ambient" then
        if position.isSome || direction.isSome then
          Except.error "Only type and intensity are supported for ambient lights"
        else Except.ok (Definition.AmbientLight i)
      else if t = "point" then
        match position with
        | none => Except.error "point lights require a position"
        | some p =>
          if direction.isSome then
            Except.error "point lights do not support the direction property"
          else Except.ok (Definition.PointLight i p)
      else if t = "directional" then
        match direction with
        | none => Except.error "directional lights require a direction"
        | some d =>
          if position.isSome then
            Except.error "directional lights do not support the position property"
          else Except.ok (Definition.DirectionLight i d)
      else Except.error ("Unsupported light type: " ++ t)
    | _, _ => Except.error "light definitions require a type and an intensity"

/-- `Definition::light_from_raw` (src/lang/parser.rs:76): the collection
loop followed by the per-kind validation. -/
def Definition.light_from_raw (raw : RawDefinition) : Except String Definition :=
  (collect_light_fields raw.assignments (none, none, none, none)).bind validate_light

/-- The `for assignment in raw.assignments` loop of
`Definition::sphere_from_raw` (src/lang/parser.rs:144). -/
def collect_sphere_fields :
    List Assignment →
    Option (ℚ × ℚ × ℚ) × Option (ℚ × ℚ × ℚ) × Option ℚ →
    Except String (Option (ℚ × ℚ × ℚ) × Option (ℚ × ℚ × ℚ) × Option ℚ)
  | [], acc => Except.ok acc
  | a :: rest, (color, center, radius) =>
    match a.name with
    | "color" => do
        let t ← Definition.tuple_value a.value "color"
        collect_sphere_fields rest (some t, center, radius)
    | "center" => do
        let t ← Definition.tuple_value a.value "center"
        collect_sphere_fields rest (color, some t, radius)
    | "radius" => do
        let n ← Definition.numeric_value a.value "radius"
        collect_sphere_fields rest (color, center, some n)
    | _ => Except.error "Expected properties: color, center, radius"

/-- `Definition::sphere_from_raw` (src/lang/parser.rs:139): all three keys
required; note the source applies no sign check to `radius`. -/
def Definition.sphere_from_raw (raw : RawDefinition) : Except String Definition :=
  (collect_sphere_fields raw.assignments (none, none, none)).bind
    (fun acc =>
      match acc with
      | (some color, some center, some radius) =>
          Except.ok (Definition.Sphere color center radius)
      | _ => Except.error "Sphere definitions require color, center, radius but some values are missing")

/-- `Definition::from_raw` (src/lang/parser.rs:41). -/
def Definition.from_raw (raw : RawDefinition) : Except String Definition :=
  if raw.def_type = "window" then Definition.window_from_raw raw
  else if raw.def_type = "light" then Definition.light_from_raw raw
  else if raw.def_type = "sphere" then Definition.sphere_from_raw raw
  else Except.error ("Unsupported definition type: " ++ raw.def_type)

/-- `strip_speechmarks` (src/lang/parser.rs:381): `trim_matches('"')`. -/
def strip_speechmarks (src : String) : String :=
  String.mk (((src.data.dropWhile (fun ch => ch = '"')).reverse.dropWhile
    (fun ch => ch = '"')).reverse)

/- `Parser` keeps `src: Vec<Token>` plus a cursor `position`
(src/lang/parser.rs:219); the embedding passes the remaining suffix of the
token buffer instead, so `peek` is pattern matching on the head and `next`
also drops it. -/

/-- `Parser::munch_newlines` (src/lang/parser.rs:265). -/
def munch_newlines : List Token → List Token
  | Token.NewLine :: rest => munch_newlines rest
  | ts => ts

/-- `Parser::expect` (src/lang/parser.rs:344): consume one token and demand
it equals `expected` (derived `PartialEq`). -/
def expect (expected : Token) (failed_match : String) :
    List Token → Except String (List Token)
  | [] => Except.error "Expected token but got EOF"
  | t :: rest => if t = expected then Except.ok rest else Except.error failed_match

/-- `Parser::expect_number` (src/lang/parser.rs:356). -/
def expect_number (err : String) : List Token → Except String (ℚ × List Token)
  | [] => Except.error "Expected a number but got EOF"
  | Token.Number n :: rest => Except.ok (n, rest)
  | _ :: _ => Except.error err

/-- `Parser::expect_ident` (src/lang/parser.rs:368). -/
def expect_ident (err : String) : List Token → Except String (String × List Token)
  | [] => Except.error "Expected an ident but got EOF"
  | Token.Identifier s :: rest => Except.ok (s, rest)
  | _ :: _ => Except.error err

/-- `Parser::parse_tuple` (src/lang/parser.rs:327): three numbers separated
by commas, closed by a right paren (the left paren was already consumed). -/
def parse_tuple (ts : List Token) : Except String (Value × List Token) := do
  let (num1, ts) ← expect_number "Tuples can only contain numbers" ts
  let ts ← expect Token.Comma "Expected a comma to separate values in tuple" ts
  let (num2, ts) ← expect_number "Tuples can only contain numbers" ts
  let ts ← expect Token.Comma "Expected a comma to separate values in tuple" ts
  let (num3, ts) ← expect_number "Tuples can only contain number" ts
  let ts ← expect Token.RParen "Expected a right paren to close tuple" ts
  Except.ok (Value.Tuple (num1, num2, num3), ts)

/-- `Parser::parse_value` (src/lang/parser.rs:314): a number, a quoted
string (quotes stripped), a bare identifier as string, or a tuple; anything
else — including an `Error` token — is an invalid value. -/
def parse_value : List Token → Except String (Value × List Token)
  | [] => Except.error "Unexpected EOF when parsing a value"
  | Token.Number n :: rest => Except.ok (Value.Num n, rest)
  | Token.VString s :: rest => Except.ok (Value.VString (strip_speechmarks s), rest)
  | Token.Identifier s :: rest => Except.ok (Value.VString s, rest)
  | Token.LParen :: rest => parse_tuple rest
  | _ :: _ => Except.error "Invalid value"

/-- `Parser::parse_assignment` (src/lang/parser.rs:302):
`identifier = value NEWLINE`. -/
def parse_assignment (ts : List Token) : Except String (Assignment × List Token) := do
  let (name, ts) ← expect_ident "Assignments should start with identifiers" ts
  let ts ← expect Token.Equal "Expected = when parsing assignment" ts
  let (value, ts) ← parse_value ts
  let ts ← expect Token.NewLine "Expect assignments to be terminated by newlines" ts
  Except.ok ({ name := name, value := value }, ts)

/-- The `loop` inside `Parser::parse_raw_definition`
(src/lang/parser.rs:281): skip newlines, stop at the closing brace, parse
further assignments at identifiers, and reject anything else. Fuelled; each
pass consumes at least one token, and every caller passes more fuel than
there are tokens, so the fuel-exhausted branch (an error, like every other
abnormal exit) is never taken. -/
def definition_body_loop :
    ℕ → List Assignment → List Token → Except String (List Assignment × List Token)
  | 0, _, _ => Except.error "Unexpected EOF when parsing definition"
  | fuel + 1, acc, ts =>
    match ts with
    | [] => Except.error "Unexpected EOF when parsing definition"
    | Token.NewLine :: rest => definition_body_loop fuel acc rest
    | Token.RBrace :: rest => Except.ok (acc, rest)
    | Token.Identifier s :: rest => do
        let (a, ts2) ← parse_assignment (Token.Identifier s :: rest)
        definition_body_loop fuel (acc ++ [a]) ts2
    | _ :: _ =>
      Except.error "Unexpected token when parsing definition; expected assignment or closing brace"

/-- `Parser::parse_raw_definition` (src/lang/parser.rs:271):
`identifier '{' NEWLINE* assignment ...loop... '}'`. -/
def parse_raw_definition (fuel : ℕ) (ts : List Token) :
    Except String (RawDefinition × List Token) := do
  let (def_type, ts) ← expect_ident "Object definitions should start with a definition type" ts
  let ts ← expect Token.LBrace "A definition should be opened by a curly brace" ts
  let ts := munch_newlines ts
  let (a, ts) ← parse_assignment ts
  let (assignments, ts) ← definition_body_loop fuel [a] ts
  Except.ok ({ def_type := def_type, assignments := assignments }, ts)

/-- The `while let Some(x) = self.peek()` loop of `Parser::parse`
(src/lang/parser.rs:254), with the leading `munch_newlines` folded into the
loop head (the source munches once before the loop and once after each
definition, which is the same schedule). Fuelled like
`definition_body_loop`. -/
def parse_loop : ℕ → List RawDefinition → List Token → Except String (List RawDefinition)
  | 0, _, _ => Except.error "Parser fuel exhausted"
  | fuel + 1, acc, ts =>
    match munch_newlines ts with
    | [] => Except.ok acc
    | t :: rest => do
        let (d, ts2) ← parse_raw_definition (fuel + 1) (t :: rest)
        parse_loop fuel (acc ++ [d]) ts2

/-- `Parser::parse` (src/lang/parser.rs:251): accumulate raw definitions
over the whole buffer, then validate each through `Definition::from_raw`.
The fuel `ts.length + 1` exceeds the number of loop passes, every pass
consuming at least one token. -/
def Parser.parse (ts : List Token) : Except String (List Definition) := do
  let raws ← parse_loop (ts.length + 1) [] ts
  raws.mapM Definition.from_raw

/- ============ spec-side comparison definitions and concrete instances ============ -/

/-- The canvas→world projection exactly as claim C2 words it:
`world_y = canvas_y * viewport.height / canvas.height` with the canvas
height dimension as divisor. Stated from the spec for comparison with
`Scene.convert` (which divides by the `Canvas::height()` accessor). -/
noncomputable def claimed_canvas_to_world (scene : Scene) (coord : CanvasCoordinate) :
    WorldCoordinate :=
  ⟨(coord.x : ℝ) * (scene.viewport.width : ℝ) / (scene.canvas.width : ℝ),
   (coord.y : ℝ) * (scene.viewport.height : ℝ) / (scene.canvas.height : ℝ),
   (scene.viewport.depth : ℝ)⟩

/-- The light-validation table exactly as claim C5 words it; `none` stands
for "validation reports an error". Stated from the spec for comparison with
`Definition.light_from_raw`. -/
def claimed_light_result (ty : Option String) (intensity : Option ℚ)
    (position direction : Option (ℚ × ℚ × ℚ)) : Option Definition :=
  match ty, intensity with
  | some t, some i =>
    if t = "ambient" then
      if position = none ∧ direction = none then some (Definition.AmbientLight i) else none
    else if t = "point" then
      match position, direction with
      | some p, none => some (Definition.PointLight i p)
      | _, _ => none
    else if t = "directional" then
      match direction, position with
      | some d, none => some (Definition.DirectionLight i d)
      | _, _ => none
    else none
  | _, _ => none

/-- The scene of claim C2's failing input: canvas 4×2 (width ≠ height so the
`Canvas::height()` slip is visible), default viewport. -/
def sceneC2 : Scene := ⟨ORIGIN, ViewPort.default, ⟨4, 2⟩, [], Color.rgb 0 0 0, []⟩

/-- The sphere of the spec's intersection test (claim C6): center (0,0,5),
radius 1; its color is built from an rgb tuple as the scene loader does. -/
noncomputable def sphere_ex : Sphere := ⟨1, ⟨0, 0, 5⟩, Color.from_rgb_tuple (255, 0, 0)⟩

/-- The ray direction of the spec's intersection test (claim C6). -/
def d_ex : WorldCoordinate := ⟨0, 0, 1⟩

/-- A scene holding `sphere_ex` and a single ambient light of intensity 1/2,
used to exhibit the alpha channel of a rendered sphere pixel (claim C10). -/
noncomputable def scene10 : Scene :=
  ⟨ORIGIN, ViewPort.default, ⟨2, 2⟩, [sphere_ex], Color.rgb 0 0 0, [Light.Ambient (1 / 2)]⟩

/-- The scene of claim C1's counterexample: 2×2 canvas, no spheres, no
lights, background color bytes (5,6,7,8) — every traced pixel is the
background, so any byte the renderer leaves at its sentinel value 0 was
never written. -/
def sceneC1 : Scene := ⟨ORIGIN, ViewPort.default, ⟨2, 2⟩, [], ⟨5, 6, 7, 8⟩, []⟩

/-- The row-major grid of canvas coordinates
`(min_x + i, min_y + r)` for `r < rows`, `i < cols`: the characterization
target for `Canvas.coords` (claim C1). -/
def canvas_grid (min_x min_y : ℤ) (cols rows : ℕ) : List CanvasCoordinate :=
  (List.range rows).flatMap
    (fun r : ℕ => (List.range cols).map (fun i : ℕ => ⟨min_x + (i : ℤ), min_y + (r : ℤ)⟩))

/- ===================== helper lemmas ===================== -/

lemma wc_sub_def (a b : WorldCoordinate) :
    a - b = WorldCoordinate.mk (a.x - b.x) (a.y - b.y) (a.z - b.z) := rfl

lemma wc_add_def (a b : WorldCoordinate) :
    a + b = WorldCoordinate.mk (a.x + b.x) (a.y + b.y) (a.z + b.z) := rfl

lemma wc_smul_def (a : WorldCoordinate) (s : ℝ) :
    a * s = WorldCoordinate.mk (a.x * s) (a.y * s) (a.z * s) := rfl

lemma wc_sdiv_def (a : WorldCoordinate) (s : ℝ) :
    a / s = WorldCoordinate.mk (a.x / s) (a.y / s) (a.z / s) := rfl

lemma sqrt_four : Real.sqrt 4 = 2 := by
  rw [show (4 : ℝ) = 2 ^ 2 by norm_num]
  exact Real.sqrt_sq (by norm_num)

lemma mul_with_ceiling_le_255 (a : ℕ) (b : ℝ) : mul_with_ceiling a b ≤ 255 := by
  unfold mul_with_ceiling
  split
  · exact le_refl _
  · next h =>
    have h2 : (a : ℝ) * b ≤ 255 := not_lt.mp h
    have h3 : ⌊(a : ℝ) * b⌋ ≤ 255 := by
      calc ⌊(a : ℝ) * b⌋ ≤ ⌊(255 : ℝ)⌋ := Int.floor_le_floor h2
        _ = 255 := by norm_num
    omega

lemma intersect_ex : sphere_ex.intersect_ray ORIGIN d_ex = (((6:ℝ):EReal), ((4:ℝ):EReal)) := by
  simp only [Sphere.intersect_ray, sphere_ex, d_ex, ORIGIN, wc_sub_def, WorldCoordinate.dot]
  norm_num [sqrt_four]

lemma closest_hit_ex : closest_hit [sphere_ex] ORIGIN d_ex (((1:ℝ):EReal)) ⊤ =
    (((4:ℝ):EReal), some sphere_ex) := by
  have h1 : ((1:ℝ):EReal) ≤ ((6:ℝ):EReal) ∧ ((6:ℝ):EReal) ≤ (⊤:EReal) ∧
      ((6:ℝ):EReal) < (⊤, (none : Option Sphere)).1 := by
    refine ⟨?_, le_top, ?_⟩
    · exact_mod_cast (by norm_num : (1:ℝ) ≤ 6)
    · exact EReal.coe_lt_top 6
  simp only [closest_hit, List.foldl_cons, List.foldl_nil, closest_step, intersect_ex]
  rw [if_pos h1]
  have h2 : ((1:ℝ):EReal) ≤ ((4:ℝ):EReal) ∧ ((4:ℝ):EReal) ≤ (⊤:EReal) ∧
      ((4:ℝ):EReal) < (((6:ℝ):EReal), some sphere_ex).1 := by
    refine ⟨?_, le_top, ?_⟩
    · exact_mod_cast (by norm_num : (1:ℝ) ≤ 4)
    · show ((4:ℝ):EReal) < ((6:ℝ):EReal)
      exact_mod_cast (by norm_num : (4:ℝ) < 6)
  rw [if_pos h2]

/- ===================== claim theorems ===================== -/

/-- C9: `Color::scale` saturates channel-wise — for every color and scalar,
each of the four resulting channels stays in [0, 255] (they are naturals,
so the lower bound is inherent and the upper bound is proved); and scaling
a channel value of 200 by 2.0 yields exactly 255, never wrapping below
200. -/
theorem color_scale_saturates :
    (∀ (c : Color) (s : ℝ),
      (c.scale s).red ≤ 255 ∧ (c.scale s).green ≤ 255 ∧
      (c.scale s).blue ≤ 255 ∧ (c.scale s).alpha ≤ 255) ∧
    mul_with_ceiling 200 2 = 255 ∧ 200 ≤ mul_with_ceiling 200 2 := by
  have h200 : mul_with_ceiling 200 2 = 255 := by
    unfold mul_with_ceiling
    rw [if_pos (by norm_num)]
  refine ⟨fun c s => ?_, h200, by omega⟩
  exact ⟨mul_with_ceiling_le_255 _ _, mul_with_ceiling_le_255 _ _,
    mul_with_ceiling_le_255 _ _, mul_with_ceiling_le_255 _ _⟩

/-- C3: for a canvas with positive width and height, the canvas→screen
conversion computes `x = width/2 + cx` and `y = height/2 - cy` (the
vertical flip), returns `OnScreen x y` when `0 ≤ x < width` and
`0 ≤ y < height`, and `OffScreen` otherwise. -/
theorem canvas_to_screen_conversion (c : Canvas) (cx cy : ℤ)
    (hw : 0 < c.width) (hh : 0 < c.height) :
    ((0 ≤ ((c.width / 2 : ℕ) : ℤ) + cx ∧ ((c.width / 2 : ℕ) : ℤ) + cx < (c.width : ℤ) ∧
      0 ≤ ((c.height / 2 : ℕ) : ℤ) - cy ∧ ((c.height / 2 : ℕ) : ℤ) - cy < (c.height : ℤ)) →
      c.convert ⟨cx, cy⟩ =
        ScreenCoordinate.OnScreen (((c.width / 2 : ℕ) : ℤ) + cx).toNat
          (((c.height / 2 : ℕ) : ℤ) - cy).toNat) ∧
    (¬ (0 ≤ ((c.width / 2 : ℕ) : ℤ) + cx ∧ ((c.width / 2 : ℕ) : ℤ) + cx < (c.width : ℤ) ∧
      0 ≤ ((c.height / 2 : ℕ) : ℤ) - cy ∧ ((c.height / 2 : ℕ) : ℤ) - cy < (c.height : ℤ)) →
      c.convert ⟨cx, cy⟩ = ScreenCoordinate.OffScreen) := by
  constructor
  · intro h
    simp only [Canvas.convert, out_of_bounds]
    rw [if_neg]
    simp only [Bool.or_eq_true, decide_eq_true_eq, not_or]
    omega
  · intro h
    simp only [Canvas.convert, out_of_bounds]
    rw [if_pos]
    simp only [Bool.or_eq_true, decide_eq_true_eq]
    omega

/-- Witness for C3 at the canvas 2×2 and canvas coordinate (0, 0): the
conversion puts it on screen at pixel (1, 1) = (width/2, height/2). -/
theorem canvas_to_screen_conversion_witness :
    0 < (2:ℕ) ∧ (Canvas.mk 2 2).convert ⟨0, 0⟩ = ScreenCoordinate.OnScreen 1 1 := by
  refine ⟨by norm_num, ?_⟩
  have h := (canvas_to_screen_conversion ⟨2, 2⟩ 0 0 (by norm_num) (by norm_num)).1
    (by norm_num)
  simpa using h

/-- C4 counterexample: a raw sphere block with `radius = -1` and a raw
ambient-light block with `intensity = -2` both pass validation and produce
`Definition`s, where the claim says validation must return an error. -/
theorem validation_sign_counterexample :
    Definition.sphere_from_raw ⟨"sphere",
      [⟨"color", Value.Tuple (1, 2, 3)⟩, ⟨"center", Value.Tuple (0, 0, 0)⟩,
       ⟨"radius", Value.Num (-1)⟩]⟩
      = Except.ok (Definition.Sphere (1, 2, 3) (0, 0, 0) (-1)) ∧
    Definition.light_from_raw ⟨"light",
      [⟨"type", Value.VString "ambient"⟩, ⟨"intensity", Value.Num (-2)⟩]⟩
      = Except.ok (Definition.AmbientLight (-2)) := by
  constructor <;> rfl

/-- C4 amended: validation enforces only structural rules (key presence,
known keys, value shapes, light-kind exclusivity), not the numeric sign
invariants — a well-formed sphere block is accepted for every radius value,
including nonpositive ones, and a well-formed ambient-light block is
accepted for every intensity value, including negative ones, with the value
passed through unchecked. -/
theorem validation_sign_unchecked (color center : ℚ × ℚ × ℚ) (radius intensity : ℚ) :
    Definition.sphere_from_raw ⟨"sphere",
      [⟨"color", Value.Tuple color⟩, ⟨"center", Value.Tuple center⟩,
       ⟨"radius", Value.Num radius⟩]⟩
      = Except.ok (Definition.Sphere color center radius) ∧
    Definition.light_from_raw ⟨"light",
      [⟨"type", Value.VString "ambient"⟩, ⟨"intensity", Value.Num intensity⟩]⟩
      = Except.ok (Definition.AmbientLight intensity) := by
  constructor <;> rfl

/-- C2: evaluation of the canvas→world projection at the failing input
(canvas 4×2, default viewport, canvas coordinate (0, 1)). The source
divides `world_y` by `Canvas::height()`, an accessor that returns the
canvas *width* (src/canvas.rs:53), yielding 1/4; the claim's formula
`world_y = canvas_y * viewport.height / canvas.height` yields 1/2. -/
theorem viewport_projection_divides_by_width :
    (sceneC2.convert ⟨0, 1⟩).y = 1 / 4 ∧
    (claimed_canvas_to_world sceneC2 ⟨0, 1⟩).y = 1 / 2 ∧
    ((1 : ℝ) / 4) ≠ 1 / 2 := by
  refine ⟨?_, ?_, by norm_num⟩
  · simp only [Scene.convert, sceneC2, Canvas.heightFn, ViewPort.default]
    norm_num
  · simp only [claimed_canvas_to_world, sceneC2, ViewPort.default]
    norm_num

/-- C7: per-light contribution — an ambient light contributes its intensity
unconditionally; a directional or point light (light vector: the fixed
direction, resp. `position - point`) contributes 0 whenever
`normal·v ≤ 0` and otherwise `intensity * (normal·v) / (|normal| * |v|)`;
in particular a directional light whose direction equals the (nonzero)
surface normal contributes exactly its intensity. -/
theorem lighting_contribution :
    (∀ (i : ℝ) (p n : WorldCoordinate), (Light.Ambient i).illumination_at_point p n = i) ∧
    (∀ (d : WorldCoordinate) (i : ℝ) (p n : WorldCoordinate),
      n.dot d ≤ 0 → (Light.Direction d i).illumination_at_point p n = 0) ∧
    (∀ (d : WorldCoordinate) (i : ℝ) (p n : WorldCoordinate),
      0 < n.dot d →
      (Light.Direction d i).illumination_at_point p n = i * n.dot d / (n.abs * d.abs)) ∧
    (∀ (pos : WorldCoordinate) (i : ℝ) (p n : WorldCoordinate),
      n.dot (pos - p) ≤ 0 → (Light.Point pos i).illumination_at_point p n = 0) ∧
    (∀ (pos : WorldCoordinate) (i : ℝ) (p n : WorldCoordinate),
      0 < n.dot (pos - p) →
      (Light.Point pos i).illumination_at_point p n =
        i * n.dot (pos - p) / (n.abs * (pos - p).abs)) ∧
    (∀ (i : ℝ) (p n : WorldCoordinate), n ≠ ⟨0, 0, 0⟩ →
      (Light.Direction n i).illumination_at_point p n = i) := by
  have key : ∀ (n : WorldCoordinate), n ≠ ⟨0, 0, 0⟩ →
      0 < n.x * n.x + n.y * n.y + n.z * n.z := by
    rintro ⟨nx, ny, nz⟩ hne
    have hnn : (0:ℝ) ≤ nx * nx + ny * ny + nz * nz := by
      nlinarith [mul_self_nonneg nx, mul_self_nonneg ny, mul_self_nonneg nz]
    rcases lt_or_eq_of_le hnn with h | h
    · exact h
    · exfalso
      have hx : nx = 0 := by nlinarith [mul_self_nonneg nx, mul_self_nonneg ny, mul_self_nonneg nz]
      have hy : ny = 0 := by nlinarith [mul_self_nonneg nx, mul_self_nonneg ny, mul_self_nonneg nz]
      have hz : nz = 0 := by nlinarith [mul_self_nonneg nx, mul_self_nonneg ny, mul_self_nonneg nz]
      exact hne (by rw [hx, hy, hz])
  refine ⟨fun i p n => rfl, ?_, ?_, ?_, ?_, ?_⟩
  · intro d i p n h
    simp only [Light.illumination_at_point, directional_intensity]
    rw [if_neg (not_lt.mpr h)]
  · intro d i p n h
    simp only [Light.illumination_at_point, directional_intensity]
    rw [if_pos h]
  · intro pos i p n h
    simp only [Light.illumination_at_point, directional_intensity]
    rw [if_neg (not_lt.mpr h)]
  · intro pos i p n h
    simp only [Light.illumination_at_point, directional_intensity]
    rw [if_pos h]
  · intro i p n hne
    have h0 : 0 < n.dot n := key n hne
    simp only [Light.illumination_at_point, directional_intensity]
    rw [if_pos h0]
    show i * n.dot n / (n.abs * n.abs) = i
    have habs : n.abs * n.abs = n.dot n := by
      simp only [WorldCoordinate.abs, WorldCoordinate.dot]
      exact Real.mul_self_sqrt
        (by nlinarith [mul_self_nonneg n.x, mul_self_nonneg n.y, mul_self_nonneg n.z])
    rw [habs, mul_div_assoc, div_self (ne_of_gt h0), mul_one]

/-- Witness for C7: an ambient light of intensity 1 contributes 1; a
directional light opposite the normal (n·v = -1 ≤ 0) contributes 0; a
directional light whose direction equals the unit normal contributes its
intensity 7/10 exactly. -/
theorem lighting_contribution_witness :
    (Light.Ambient 1).illumination_at_point ORIGIN ORIGIN = 1 ∧
    (WorldCoordinate.mk 0 0 1).dot ⟨0, 0, (-1)⟩ ≤ 0 ∧
    (Light.Direction ⟨0, 0, (-1)⟩ 1).illumination_at_point ORIGIN ⟨0, 0, 1⟩ = 0 ∧
    (Light.Direction ⟨0, 0, 1⟩ (7/10)).illumination_at_point ORIGIN ⟨0, 0, 1⟩ = 7/10 := by
  refine ⟨lighting_contribution.1 1 ORIGIN ORIGIN, by norm_num [WorldCoordinate.dot], ?_, ?_⟩
  · exact lighting_contribution.2.1 ⟨0, 0, (-1)⟩ 1 ORIGIN ⟨0, 0, 1⟩
      (by norm_num [WorldCoordinate.dot])
  · refine lighting_contribution.2.2.2.2.2 (7/10) ORIGIN ⟨0, 0, 1⟩ ?_
    intro h
    have := congrArg WorldCoordinate.z h
    norm_num at this

/-- C6: for camera (0,0,0), a sphere centered at (0,0,5) with radius 1, and
ray direction (0,0,1): `intersect_ray` returns exactly (t1 = 6, t2 = 4);
the sphere loop of `trace_ray` with bounds [1, ∞) selects the nearest hit
t = 4; and the hit point `camera + direction * t` is (0,0,4). -/
theorem sphere_intersection_example :
    sphere_ex.intersect_ray ORIGIN d_ex = (((6:ℝ):EReal), ((4:ℝ):EReal)) ∧
    closest_hit [sphere_ex] ORIGIN d_ex (((1:ℝ):EReal)) ⊤ = (((4:ℝ):EReal), some sphere_ex) ∧
    ORIGIN + d_ex * (((4:ℝ):EReal)).toReal = ⟨0, 0, 4⟩ := by
  refine ⟨intersect_ex, closest_hit_ex, ?_⟩
  simp only [wc_add_def, wc_smul_def, ORIGIN, d_ex, EReal.toReal_coe]
  norm_num

/-- C10: `Color::scale` scales all four channels including alpha (the alpha
of the result is `alpha * s` saturated); colors built from an rgb tuple
start with alpha 255; and whenever the sphere loop selects a hit, the
traced pixel — alpha included — is the sphere color scaled by the
accumulated light intensity, so the rendered alpha is 255 scaled by that
intensity rather than a constant 255. -/
theorem scale_applies_to_alpha :
    (∀ (c : Color) (s : ℝ), (c.scale s).alpha = mul_with_ceiling c.alpha s) ∧
    (∀ t : ℝ × ℝ × ℝ, (Color.from_rgb_tuple t).alpha = 255) ∧
    (∀ (scene : Scene) (d : WorldCoordinate) (t_min t_max t : EReal) (s : Sphere),
      closest_hit scene.spheres scene.camera_position d t_min t_max = (t, some s) →
      (scene.trace_ray d t_min t_max).alpha =
        mul_with_ceiling s.color.alpha
          (scene.compute_lighting (scene.camera_position + d * t.toReal)
            ((scene.camera_position + d * t.toReal - s.center) /
              (scene.camera_position + d * t.toReal - s.center).abs))) := by
  refine ⟨fun c s => rfl, fun t => rfl, fun scene d t_min t_max t s h => ?_⟩
  simp only [Scene.trace_ray, h]
  rfl

/-- Witness for C10: in a scene whose only light is ambient with intensity
1/2, the pixel traced for the hit sphere has alpha 127 = trunc(255 * 1/2),
strictly below 255. -/
theorem scale_applies_to_alpha_witness :
    (scene10.trace_ray d_ex (((1:ℝ):EReal)) ⊤).alpha = 127 ∧ (127:ℕ) ≠ 255 := by
  refine ⟨?_, by norm_num⟩
  have hch : closest_hit scene10.spheres scene10.camera_position d_ex (((1:ℝ):EReal)) ⊤ =
      (((4:ℝ):EReal), some sphere_ex) := closest_hit_ex
  have h := scale_applies_to_alpha.2.2 scene10 d_ex (((1:ℝ):EReal)) ⊤ (((4:ℝ):EReal))
    sphere_ex hch
  rw [h]
  have hl : ∀ p n : WorldCoordinate, scene10.compute_lighting p n = 1/2 := by
    intro p n
    simp [Scene.compute_lighting, scene10, Light.illumination_at_point]
  rw [hl]
  show mul_with_ceiling 255 (1/2) = 127
  unfold mul_with_ceiling
  rw [if_neg (by norm_num)]
  have hfl : ⌊((255 : ℕ) : ℝ) * (1/2)⌋ = 127 := by
    rw [Int.floor_eq_iff]
    constructor <;> norm_num
  rw [hfl]
  rfl

/-- C5: for every raw light definition whose assignment loop yields the
field slots (type, intensity, position, direction), validation behaves
exactly as the claim's table states it (`claimed_light_result`): an error
when type or intensity is missing; `type=ambient` forbids position and
direction and yields `AmbientLight`; `type=point` requires position and
forbids direction and yields `PointLight`; `type=directional` requires
direction and forbids position and yields `DirectionLight`; any other type
value is an error. -/
theorem light_validation_rules (raw : RawDefinition)
    (ty : Option String) (intensity : Option ℚ)
    (position direction : Option (ℚ × ℚ × ℚ))
    (h : collect_light_fields raw.assignments (none, none, none, none) =
      Except.ok (ty, intensity, position, direction)) :
    match claimed_light_result ty intensity position direction with
    | some d => Definition.light_from_raw raw = Except.ok d
    | none => ∃ e, Definition.light_from_raw raw = Except.error e := by
  unfold Definition.light_from_raw
  rw [h]
  show (match claimed_light_result ty intensity position direction with
    | some d => validate_light (ty, intensity, position, direction) = Except.ok d
    | none => ∃ e, validate_light (ty, intensity, position, direction) = Except.error e)
  rcases ty with _ | t
  · exact ⟨_, rfl⟩
  rcases intensity with _ | i
  · exact ⟨_, rfl⟩
  by_cases ht : t = "ambient"
  · subst ht
    rcases position with _ | p <;> rcases direction with _ | d <;>
      simp [claimed_light_result, validate_light]
  by_cases hp : t = "point"
  · subst hp
    rcases position with _ | p <;> rcases direction with _ | d <;>
      simp [claimed_light_result, validate_light]
  by_cases hd : t = "directional"
  · subst hd
    rcases position with _ | p <;> rcases direction with _ | d <;>
      simp [claimed_light_result, validate_light]
  · simp [claimed_light_result, validate_light, ht, hp, hd]

/-- Witness for C5: a point light with intensity 1 and position (1,2,3)
collects to the expected slots and validates to `PointLight`. -/
theorem light_validation_rules_witness :
    collect_light_fields ([⟨"type", Value.VString "point"⟩, ⟨"intensity", Value.Num 1⟩,
        ⟨"position", Value.Tuple (1, 2, 3)⟩] : List Assignment)
      (none, none, none, none) = Except.ok (some "point", some 1, some (1, 2, 3), none) ∧
    Definition.light_from_raw ⟨"light", [⟨"type", Value.VString "point"⟩,
        ⟨"intensity", Value.Num 1⟩, ⟨"position", Value.Tuple (1, 2, 3)⟩]⟩ =
      Except.ok (Definition.PointLight 1 (1, 2, 3)) := by
  refine ⟨rfl, ?_⟩
  have h := light_validation_rules
    ⟨"light", [⟨"type", Value.VString "point"⟩, ⟨"intensity", Value.Num 1⟩,
      ⟨"position", Value.Tuple (1, 2, 3)⟩]⟩
    (some "point") (some 1) (some (1, 2, 3)) none rfl
  simpa [claimed_light_result] using h

/- ===================== C8: Error tokens abort parsing ===================== -/

lemma except_bind_ok {α β : Type} {x : Except String α} {f : α → Except String β} {b : β}
    (h : x >>= f = Except.ok b) : ∃ a, x = Except.ok a ∧ f a = Except.ok b := by
  cases x with
  | error e => simp [Bind.bind, Except.bind] at h
  | ok a => exact ⟨a, rfl, by simpa [Bind.bind, Except.bind] using h⟩

lemma error_mem_munch (ts : List Token) (h : Token.Error ∈ ts) :
    Token.Error ∈ munch_newlines ts := by
  induction ts with
  | nil => exact absurd h (List.not_mem_nil _)
  | cons t rest ih =>
    cases t
    case NewLine =>
      rcases List.mem_cons.mp h with h1 | h1
      · exact absurd h1 (by simp)
      · exact ih h1
    all_goals exact h

lemma expect_mem (e : Token) (he : e ≠ Token.Error) (msg : String) (ts ts2 : List Token)
    (h : expect e msg ts = Except.ok ts2) (hm : Token.Error ∈ ts) : Token.Error ∈ ts2 := by
  cases ts with
  | nil => simp [expect] at h
  | cons t rest =>
    simp only [expect] at h
    by_cases hte : t = e
    · rw [if_pos hte] at h
      obtain rfl : rest = ts2 := by injection h
      rcases List.mem_cons.mp hm with h1 | h1
      · exact absurd (hte ▸ h1.symm) he
      · exact h1
    · rw [if_neg hte] at h
      exact absurd h (by simp)

lemma expect_number_mem (msg : String) (ts ts2 : List Token) (n : ℚ)
    (h : expect_number msg ts = Except.ok (n, ts2)) (hm : Token.Error ∈ ts) :
    Token.Error ∈ ts2 := by
  cases ts with
  | nil => simp [expect_number] at h
  | cons t rest =>
    cases t
    case Number m =>
      simp only [expect_number, Except.ok.injEq, Prod.mk.injEq] at h
      obtain ⟨-, rfl⟩ := h
      rcases List.mem_cons.mp hm with h1 | h1
      · exact absurd h1 (by simp)
      · exact h1
    all_goals simp [expect_number] at h

lemma expect_ident_mem (msg : String) (ts ts2 : List Token) (s : String)
    (h : expect_ident msg ts = Except.ok (s, ts2)) (hm : Token.Error ∈ ts) :
    Token.Error ∈ ts2 := by
  cases ts with
  | nil => simp [expect_ident] at h
  | cons t rest =>
    cases t
    case Identifier s2 =>
      simp only [expect_ident, Except.ok.injEq, Prod.mk.injEq] at h
      obtain ⟨-, rfl⟩ := h
      rcases List.mem_cons.mp hm with h1 | h1
      · exact absurd h1 (by simp)
      · exact h1
    all_goals simp [expect_ident] at h

lemma parse_tuple_mem (ts ts2 : List Token) (v : Value)
    (h : parse_tuple ts = Except.ok (v, ts2)) (hm : Token.Error ∈ ts) :
    Token.Error ∈ ts2 := by
  unfold parse_tuple at h
  obtain ⟨⟨n1, tsA⟩, h1, h⟩ := except_bind_ok h
  obtain ⟨tsB, h2, h⟩ := except_bind_ok h
  obtain ⟨⟨n2, tsC⟩, h3, h⟩ := except_bind_ok h
  obtain ⟨tsD, h4, h⟩ := except_bind_ok h
  obtain ⟨⟨n3, tsE⟩, h5, h⟩ := except_bind_ok h
  obtain ⟨tsF, h6, h⟩ := except_bind_ok h
  simp only [Except.ok.injEq, Prod.mk.injEq] at h
  obtain ⟨-, rfl⟩ := h
  have m1 := expect_number_mem _ _ _ _ h1 hm
  have m2 := expect_mem _ (by simp) _ _ _ h2 m1
  have m3 := expect_number_mem _ _ _ _ h3 m2
  have m4 := expect_mem _ (by simp) _ _ _ h4 m3
  have m5 := expect_number_mem _ _ _ _ h5 m4
  exact expect_mem _ (by simp) _ _ _ h6 m5

lemma parse_value_mem (ts ts2 : List Token) (v : Value)
    (h : parse_value ts = Except.ok (v, ts2)) (hm : Token.Error ∈ ts) :
    Token.Error ∈ ts2 := by
  cases ts with
  | nil => simp [parse_value] at h
  | cons t rest =>
    cases t
    case Number n =>
      simp only [parse_value, Except.ok.injEq, Prod.mk.injEq] at h
      obtain ⟨-, rfl⟩ := h
      rcases List.mem_cons.mp hm with h1 | h1
      · exact absurd h1 (by simp)
      · exact h1
    case VString s =>
      simp only [parse_value, Except.ok.injEq, Prod.mk.injEq] at h
      obtain ⟨-, rfl⟩ := h
      rcases List.mem_cons.mp hm with h1 | h1
      · exact absurd h1 (by simp)
      · exact h1
    case Identifier s =>
      simp only [parse_value, Except.ok.injEq, Prod.mk.injEq] at h
      obtain ⟨-, rfl⟩ := h
      rcases List.mem_cons.mp hm with h1 | h1
      · exact absurd h1 (by simp)
      · exact h1
    case LParen =>
      have hmem : Token.Error ∈ rest := by
        rcases List.mem_cons.mp hm with h1 | h1
        · exact absurd h1 (by simp)
        · exact h1
      exact parse_tuple_mem rest ts2 v h hmem
    all_goals simp [parse_value] at h

lemma parse_assignment_mem (ts ts2 : List Token) (a : Assignment)
    (h : parse_assignment ts = Except.ok (a, ts2)) (hm : Token.Error ∈ ts) :
    Token.Error ∈ ts2 := by
  unfold parse_assignment at h
  obtain ⟨⟨nm, tsA⟩, h1, h⟩ := except_bind_ok h
  obtain ⟨tsB, h2, h⟩ := except_bind_ok h
  obtain ⟨⟨vl, tsC⟩, h3, h⟩ := except_bind_ok h
  obtain ⟨tsD, h4, h⟩ := except_bind_ok h
  simp only [Except.ok.injEq, Prod.mk.injEq] at h
  obtain ⟨-, rfl⟩ := h
  have m1 := expect_ident_mem _ _ _ _ h1 hm
  have m2 := expect_mem _ (by simp) _ _ _ h2 m1
  have m3 := parse_value_mem _ _ _ h3 m2
  exact expect_mem _ (by simp) _ _ _ h4 m3

lemma definition_body_loop_mem (fuel : ℕ) :
    ∀ (acc : List Assignment) (ts : List Token) (a2 : List Assignment) (ts2 : List Token),
      definition_body_loop fuel acc ts = Except.ok (a2, ts2) →
      Token.Error ∈ ts → Token.Error ∈ ts2 := by
  induction fuel with
  | zero => intro acc ts a2 ts2 h _; simp [definition_body_loop] at h
  | succ fuel ih =>
    intro acc ts a2 ts2 h hm
    cases ts with
    | nil => simp [definition_body_loop] at h
    | cons t rest =>
      cases t
      case NewLine =>
        have hrest : Token.Error ∈ rest := by
          rcases List.mem_cons.mp hm with h1 | h1
          · exact absurd h1 (by simp)
          · exact h1
        exact ih acc rest a2 ts2 h hrest
      case RBrace =>
        simp only [definition_body_loop, Except.ok.injEq, Prod.mk.injEq] at h
        obtain ⟨-, rfl⟩ := h
        rcases List.mem_cons.mp hm with h1 | h1
        · exact absurd h1 (by simp)
        · exact h1
      case Identifier s =>
        simp only [definition_body_loop] at h
        obtain ⟨⟨a, tsB⟩, hA, h⟩ := except_bind_ok h
        exact ih _ _ _ _ h (parse_assignment_mem _ _ _ hA hm)
      all_goals simp [definition_body_loop] at h

lemma parse_raw_definition_mem (fuel : ℕ) (ts ts2 : List Token) (d : RawDefinition)
    (h : parse_raw_definition fuel ts = Except.ok (d, ts2)) (hm : Token.Error ∈ ts) :
    Token.Error ∈ ts2 := by
  unfold parse_raw_definition at h
  obtain ⟨⟨dt, tsA⟩, h1, h⟩ := except_bind_ok h
  obtain ⟨tsB, h2, h⟩ := except_bind_ok h
  obtain ⟨⟨a, tsC⟩, h3, h⟩ := except_bind_ok h
  obtain ⟨⟨as2, tsD⟩, h4, h⟩ := except_bind_ok h
  simp only [Except.ok.injEq, Prod.mk.injEq] at h
  obtain ⟨-, rfl⟩ := h
  have m1 := expect_ident_mem _ _ _ _ h1 hm
  have m2 := expect_mem _ (by simp) _ _ _ h2 m1
  have m3 := error_mem_munch _ m2
  have m4 := parse_assignment_mem _ _ _ h3 m3
  exact definition_body_loop_mem fuel _ _ _ _ h4 m4

lemma parse_loop_ok_no_error (fuel : ℕ) :
    ∀ (acc : List RawDefinition) (ts : List Token) (raws : List RawDefinition),
      parse_loop fuel acc ts = Except.ok raws → Token.Error ∉ ts := by
  induction fuel with
  | zero => intro acc ts raws h; simp [parse_loop] at h
  | succ fuel ih =>
    intro acc ts raws h hm
    have hm2 := error_mem_munch ts hm
    cases hmunch : munch_newlines ts with
    | nil => rw [hmunch] at hm2; exact absurd hm2 (List.not_mem_nil _)
    | cons t rest =>
      rw [hmunch] at hm2
      simp only [parse_loop, hmunch] at h
      obtain ⟨⟨d, tsB⟩, hD, h⟩ := except_bind_ok h
      exact ih _ _ _ h (parse_raw_definition_mem _ _ _ _ hD hm2)

/-- C8: any token stream containing an `Error` token (the lexer's
unrecognized-character token) makes `Parser::parse` return an error; it
never returns Ok — Error tokens are fatal and never silently skipped. -/
theorem error_token_aborts_parse (ts : List Token) (h : Token.Error ∈ ts) :
    ∃ e, Parser.parse ts = Except.error e := by
  unfold Parser.parse
  cases hp : parse_loop (ts.length + 1) [] ts with
  | error e => exact ⟨e, rfl⟩
  | ok raws => exact absurd h (parse_loop_ok_no_error _ _ _ _ hp)

/-- Witness for C8: the one-token stream consisting of a single `Error`
token is rejected by `Parser::parse`. -/
theorem error_token_aborts_parse_witness :
    Token.Error ∈ [Token.Error] ∧ ∃ e, Parser.parse [Token.Error] = Except.error e :=
  ⟨List.mem_singleton.mpr rfl, error_token_aborts_parse [Token.Error] (List.mem_singleton.mpr rfl)⟩

/- ===================== C1: iterator characterization ===================== -/

lemma emit_finished (s : EachCanvasCoordinate) (hf : s.finished = true) :
    ∀ fuel, emit_all s fuel = [] := by
  intro fuel
  cases fuel with
  | zero => rfl
  | succ f =>
    simp only [emit_all, EachCanvasCoordinate.next, hf]
    rfl

lemma emit_row (m maxy : ℤ) :
    ∀ (k : ℕ) (x0 y : ℤ) (fuel : ℕ),
      1 ≤ k → x0 = m - k → y < maxy → k ≤ fuel →
      emit_all ⟨-m, m, maxy, x0, y, false⟩ fuel =
        (List.range k).map (fun i => ⟨x0 + i, y⟩) ++
          emit_all ⟨-m, m, maxy, -m, y + 1, decide (maxy ≤ y + 1)⟩ (fuel - k) := by
  intro k
  induction k with
  | zero => intro x0 y fuel h1; omega
  | succ k ih =>
    intro x0 y fuel h1 hx0 hy hfuel
    cases fuel with
    | zero => omega
    | succ f =>
      by_cases hk : k = 0
      · subst hk
        have hnext : EachCanvasCoordinate.next ⟨-m, m, maxy, x0, y, false⟩ =
            (some ⟨x0, y⟩, ⟨-m, m, maxy, -m, y + 1, decide (maxy ≤ y + 1)⟩) := by
          simp only [EachCanvasCoordinate.next, Bool.false_eq_true, if_false]
          rw [if_pos (by omega : x0 + 1 ≥ m)]
          by_cases hw : y + 1 ≥ maxy
          · rw [if_pos hw]
            simp [hw]
          · rw [if_neg hw]
            simp [hw]
        simp only [emit_all, hnext]
        rw [show List.range 1 = [0] by rfl]
        simp only [List.map_cons, List.map_nil, List.cons_append, List.nil_append,
          Nat.cast_zero, add_zero]
        rfl
      · have hnext : EachCanvasCoordinate.next ⟨-m, m, maxy, x0, y, false⟩ =
            (some ⟨x0, y⟩, ⟨-m, m, maxy, x0 + 1, y, false⟩) := by
          simp only [EachCanvasCoordinate.next, Bool.false_eq_true, if_false]
          rw [if_neg (by omega : ¬ (x0 + 1 ≥ m))]
        simp only [emit_all, hnext]
        rw [ih (x0 + 1) y f (by omega) (by omega) hy (by omega)]
        have hfun : (fun i : ℕ => (⟨x0 + i, y⟩ : CanvasCoordinate)) ∘ Nat.succ =
            fun i : ℕ => (⟨x0 + 1 + i, y⟩ : CanvasCoordinate) := by
          funext i
          simp only [Function.comp_apply, CanvasCoordinate.mk.injEq, and_true]
          push_cast
          ring
        rw [List.range_succ_eq_map, List.map_cons, List.map_map, hfun]
        simp only [Nat.cast_zero, add_zero, List.cons_append, Nat.succ_sub_succ]

lemma emit_rows (m maxy : ℤ) (hm : 0 < m) :
    ∀ (j : ℕ) (fuel : ℕ), 1 ≤ j → j * (m + m).toNat ≤ fuel →
      emit_all ⟨-m, m, maxy, -m, maxy - j, false⟩ fuel =
        (List.range j).flatMap (fun r => (List.range (m + m).toNat).map
          (fun i => ⟨-m + i, maxy - j + r⟩)) := by
  intro j
  induction j with
  | zero => intro fuel h1; omega
  | succ j ih =>
    intro fuel h1 hfuel
    have hk1 : 1 ≤ (m + m).toNat := by omega
    have hkfuel : (m + m).toNat ≤ fuel := by
      calc (m + m).toNat = 1 * (m + m).toNat := (one_mul _).symm
        _ ≤ (j + 1) * (m + m).toNat := Nat.mul_le_mul_right _ (by omega)
        _ ≤ fuel := hfuel
    rw [emit_row m maxy ((m + m).toNat) (-m) (maxy - (j + 1 : ℕ)) fuel hk1 (by omega)
      (by push_cast; omega) hkfuel]
    by_cases hj : j = 0
    · subst hj
      have hy : maxy - ((0 + 1 : ℕ) : ℤ) + 1 = maxy := by push_cast; ring
      rw [hy]
      rw [emit_finished _ (by simp) _]
      rw [show List.range 1 = [0] by rfl]
      simp only [List.flatMap_cons, List.flatMap_nil, List.append_nil,
        Nat.cast_zero, add_zero]
    · have hstate : (⟨-m, m, maxy, -m, maxy - ((j + 1 : ℕ) : ℤ) + 1,
          decide (maxy ≤ maxy - ((j + 1 : ℕ) : ℤ) + 1)⟩ : EachCanvasCoordinate) =
          ⟨-m, m, maxy, -m, maxy - (j : ℕ), false⟩ := by
        have hy : maxy - ((j + 1 : ℕ) : ℤ) + 1 = maxy - (j : ℕ) := by push_cast; ring
        rw [hy]
        simp only [EachCanvasCoordinate.mk.injEq, true_and]
        simp only [decide_eq_false_iff_not]
        omega
      rw [hstate]
      have hmul : (j + 1) * (m + m).toNat = j * (m + m).toNat + (m + m).toNat := by ring
      rw [ih (fuel - (m + m).toNat) (by omega) (by omega)]
      rw [List.range_succ_eq_map, List.flatMap_cons, List.flatMap_map]
      have hfun : (fun r : ℕ => (List.range (m + m).toNat).map
            (fun i : ℕ => (⟨-m + i, maxy - ((j + 1 : ℕ) : ℤ) + (Nat.succ r : ℕ)⟩ :
              CanvasCoordinate))) =
          fun r : ℕ => (List.range (m + m).toNat).map
            (fun i : ℕ => (⟨-m + i, maxy - ((j : ℕ) : ℤ) + (r : ℕ)⟩ : CanvasCoordinate)) := by
        funext r
        apply List.map_congr_left
        intro i _
        simp only [CanvasCoordinate.mk.injEq, true_and]
        push_cast
        ring
      rw [hfun]
      simp only [Nat.cast_zero, add_zero]

lemma coords_eq_grid (m n : ℕ) (hm : 0 < m) (hn : 0 < n) :
    (Canvas.mk (2*m) (2*n)).coords = canvas_grid (-(m:ℤ)) (-(n:ℤ)) (2*m) (2*n) := by
  simp only [Canvas.coords, Canvas.iter_pixels, canvas_grid]
  have hdx : (((2*m : ℕ) : ℤ)) / 2 = (m:ℤ) := by push_cast; omega
  have hdy : (((2*n : ℕ) : ℤ)) / 2 = (n:ℤ) := by push_cast; omega
  rw [hdx, hdy]
  have hstate : (⟨-(m:ℤ), (m:ℤ), (n:ℤ), -(m:ℤ), -(n:ℤ), false⟩ : EachCanvasCoordinate) =
      ⟨-(m:ℤ), (m:ℤ), (n:ℤ), -(m:ℤ), (n:ℤ) - ((2*n : ℕ) : ℤ), false⟩ := by
    simp only [EachCanvasCoordinate.mk.injEq, true_and, and_true]
    push_cast
    ring
  rw [hstate]
  have htn : ((m:ℤ) + (m:ℤ)).toNat = 2*m := by omega
  have hfuel : 2*n * ((m:ℤ) + (m:ℤ)).toNat ≤ (2*m+1)*(2*n+1)+1 := by
    rw [htn]
    calc 2*n*(2*m) ≤ (2*n+1)*(2*m+1) := Nat.mul_le_mul (by omega) (by omega)
      _ = (2*m+1)*(2*n+1) := by ring
      _ ≤ (2*m+1)*(2*n+1)+1 := by omega
  rw [emit_rows (m:ℤ) (n:ℤ) (by exact_mod_cast hm) (2*n) ((2*m+1)*(2*n+1)+1)
    (by omega) hfuel]
  rw [htn]
  have hfun : (fun r : ℕ => (List.range (2*m)).map
        (fun i : ℕ => (⟨-(m:ℤ) + i, (n:ℤ) - ((2*n : ℕ) : ℤ) + r⟩ : CanvasCoordinate))) =
      fun r : ℕ => (List.range (2*m)).map
        (fun i : ℕ => (⟨-(m:ℤ) + i, -(n:ℤ) + r⟩ : CanvasCoordinate)) := by
    funext r
    apply List.map_congr_left
    intro i _
    simp only [CanvasCoordinate.mk.injEq, true_and]
    push_cast
    ring
  rw [hfun]

lemma mem_canvas_grid (minx miny : ℤ) (cols rows : ℕ) (c : CanvasCoordinate) :
    c ∈ canvas_grid minx miny cols rows ↔
      minx ≤ c.x ∧ c.x < minx + cols ∧ miny ≤ c.y ∧ c.y < miny + rows := by
  obtain ⟨cx, cy⟩ := c
  simp only [canvas_grid, List.mem_flatMap, List.mem_map, List.mem_range,
    CanvasCoordinate.mk.injEq]
  constructor
  · rintro ⟨r, hr, i, hi, hx, hy⟩
    omega
  · rintro ⟨h1, h2, h3, h4⟩
    exact ⟨(cy - miny).toNat, by omega, (cx - minx).toNat, by omega, by omega, by omega⟩

lemma nodup_canvas_grid (minx miny : ℤ) (cols rows : ℕ) :
    (canvas_grid minx miny cols rows).Nodup := by
  rw [canvas_grid, List.nodup_flatMap]
  constructor
  · intro r _
    refine List.Nodup.map_on ?_ (List.nodup_range _)
    intro a _ b _ hab
    simp only [CanvasCoordinate.mk.injEq, and_true] at hab
    omega
  · refine List.Pairwise.imp ?_ (List.pairwise_lt_range _)
    intro a b hab
    rw [Function.onFun, List.disjoint_left]
    intro c hca hcb
    simp only [List.mem_map, List.mem_range] at hca hcb
    obtain ⟨i, _, rfl⟩ := hca
    obtain ⟨i2, _, heq⟩ := hcb
    have hy := congrArg CanvasCoordinate.y heq
    simp only at hy
    omega

lemma count_canvas_grid (minx miny : ℤ) (cols rows : ℕ) (c : CanvasCoordinate) :
    (canvas_grid minx miny cols rows).count c =
      if minx ≤ c.x ∧ c.x < minx + cols ∧ miny ≤ c.y ∧ c.y < miny + rows then 1 else 0 := by
  by_cases h : minx ≤ c.x ∧ c.x < minx + cols ∧ miny ≤ c.y ∧ c.y < miny + rows
  · rw [if_pos h]
    exact List.count_eq_one_of_mem (nodup_canvas_grid _ _ _ _)
      ((mem_canvas_grid _ _ _ _ _).mpr h)
  · rw [if_neg h]
    exact List.count_eq_zero.mpr (fun hmem => h ((mem_canvas_grid _ _ _ _ _).mp hmem))

lemma convert_grid_coord (m n : ℕ) (c : CanvasCoordinate)
    (hx1 : -(m:ℤ) ≤ c.x) (hx2 : c.x < m) (hy1 : -(n:ℤ) ≤ c.y) (hy2 : c.y < n) :
    Canvas.convert ⟨2*m, 2*n⟩ c =
      if c.y = -(n:ℤ) then ScreenCoordinate.OffScreen
      else ScreenCoordinate.OnScreen ((m:ℤ) + c.x).toNat ((n:ℤ) - c.y).toNat := by
  simp only [Canvas.convert, out_of_bounds]
  have hw2 : ((2*m)/2 : ℕ) = m := by omega
  have hh2 : ((2*n)/2 : ℕ) = n := by omega
  rw [hw2, hh2]
  by_cases hcy : c.y = -(n:ℤ)
  · rw [if_pos hcy, if_pos]
    simp only [Bool.or_eq_true, decide_eq_true_eq]
    omega
  · rw [if_neg hcy, if_neg]
    simp only [Bool.or_eq_true, decide_eq_true_eq]
    omega

lemma count_flatMap {α β : Type} [DecidableEq β] (l : List α) (f : α → List β) (b : β) :
    (l.flatMap f).count b = (l.map (fun a => (f a).count b)).sum := by
  induction l with
  | nil => rfl
  | cons a l ih => simp [List.flatMap_cons, List.count_append, ih]

lemma sum_if_unique (p : ℕ → Prop) [DecidablePred p] :
    ∀ N : ℕ, (∀ r1 r2, r1 < N → r2 < N → p r1 → p r2 → r1 = r2) →
    ((List.range N).map (fun r => if p r then (1:ℕ) else 0)).sum =
      if ∃ r, r < N ∧ p r then 1 else 0 := by
  intro N
  induction N with
  | zero => intro _; simp
  | succ N ih =>
    intro h
    rw [List.range_succ, List.map_append, List.sum_append,
      ih (fun r1 r2 h1 h2 => h r1 r2 (by omega) (by omega))]
    simp only [List.map_cons, List.map_nil, List.sum_cons, List.sum_nil]
    by_cases hN : p N
    · have hnot : ¬ ∃ r, r < N ∧ p r := by
        rintro ⟨r, hr, hpr⟩
        have := h r N (by omega) (by omega) hpr hN
        omega
      rw [if_neg hnot, if_pos hN,
        if_pos (⟨N, by omega, hN⟩ : ∃ r, r < N + 1 ∧ p r)]
      omega
    · by_cases hE : ∃ r, r < N ∧ p r
      · obtain ⟨r, hr, hpr⟩ := hE
        rw [if_pos (⟨r, hr, hpr⟩ : ∃ r2, r2 < N ∧ p r2), if_neg hN,
          if_pos (⟨r, by omega, hpr⟩ : ∃ r2, r2 < N + 1 ∧ p r2)]
        omega
      · have hnot2 : ¬ ∃ r, r < N + 1 ∧ p r := by
          rintro ⟨r, hr, hpr⟩
          by_cases hrN : r = N
          · exact hN (hrN ▸ hpr)
          · exact hE ⟨r, by omega, hpr⟩
        rw [if_neg hE, if_neg hN, if_neg hnot2]
        omega

lemma count_screen_targets (m n : ℕ) (hm : 0 < m) (hn : 0 < n) (x y : ℕ) :
    ((canvas_grid (-(m:ℤ)) (-(n:ℤ)) (2*m) (2*n)).map (Canvas.convert ⟨2*m, 2*n⟩)).count
      (ScreenCoordinate.OnScreen x y) =
      if x < 2*m ∧ 1 ≤ y ∧ y < 2*n then 1 else 0 := by
  rw [canvas_grid, List.map_flatMap, count_flatMap]
  have hrows : ∀ r ∈ List.range (2*n),
      ((List.map (Canvas.convert ⟨2*m, 2*n⟩)
          ((List.range (2*m)).map (fun i : ℕ =>
            (⟨-(m:ℤ) + (i:ℤ), -(n:ℤ) + (r:ℤ)⟩ : CanvasCoordinate)))).count
        (ScreenCoordinate.OnScreen x y)) =
        if x < 2*m ∧ 1 ≤ r ∧ y = 2*n - r then 1 else 0 := by
    intro r hrmem
    have hr : r < 2*n := List.mem_range.mp hrmem
    rw [List.map_map]
    have hconv : ∀ i ∈ List.range (2*m),
        (Canvas.convert ⟨2*m, 2*n⟩ ∘ fun i : ℕ =>
          (⟨-(m:ℤ) + (i:ℤ), -(n:ℤ) + (r:ℤ)⟩ : CanvasCoordinate)) i =
          (fun i : ℕ => if r = 0 then ScreenCoordinate.OffScreen
            else ScreenCoordinate.OnScreen i (2*n - r)) i := by
      intro i himem
      have hi : i < 2*m := List.mem_range.mp himem
      simp only [Function.comp_apply]
      rw [convert_grid_coord m n _ (by dsimp only; omega) (by dsimp only; omega)
        (by dsimp only; omega) (by dsimp only; omega)]
      dsimp only
      by_cases hr0 : r = 0
      · subst hr0
        rw [if_pos (by omega), if_pos rfl]
      · rw [if_neg (by omega), if_neg hr0]
        simp only [ScreenCoordinate.OnScreen.injEq]
        constructor <;> omega
    rw [List.map_congr_left hconv]
    by_cases hr0 : r = 0
    · subst hr0
      rw [if_neg (by omega)]
      apply List.count_eq_zero.mpr
      simp only [List.mem_map, List.mem_range]
      rintro ⟨i, hi, heq⟩
      simp at heq
    · have hfun2 : (fun i : ℕ => if r = 0 then ScreenCoordinate.OffScreen
          else ScreenCoordinate.OnScreen i (2*n - r)) =
          fun i : ℕ => ScreenCoordinate.OnScreen i (2*n - r) := by
        funext i
        rw [if_neg hr0]
      rw [hfun2]
      by_cases hxy : x < 2*m ∧ y = 2*n - r
      · obtain ⟨hx, rfl⟩ := hxy
        rw [if_pos ⟨hx, by omega, rfl⟩]
        apply List.count_eq_one_of_mem
        · refine List.Nodup.map_on ?_ (List.nodup_range _)
          intro a _ b _ hab
          simpa using hab
        · simp only [List.mem_map, List.mem_range]
          exact ⟨x, hx, rfl⟩
      · rw [if_neg (fun hcon => hxy ⟨hcon.1, hcon.2.2⟩)]
        apply List.count_eq_zero.mpr
        simp only [List.mem_map, List.mem_range]
        rintro ⟨i, hi, heq⟩
        simp only [ScreenCoordinate.OnScreen.injEq] at heq
        exact hxy ⟨by omega, heq.2.symm⟩
  rw [List.map_congr_left hrows]
  rw [sum_if_unique (fun r => x < 2*m ∧ 1 ≤ r ∧ y = 2*n - r) (2*n)
    (fun r1 r2 h1 h2 hp1 hp2 => by omega)]
  have hiff : (∃ r, r < 2*n ∧ (x < 2*m ∧ 1 ≤ r ∧ y = 2*n - r)) ↔
      (x < 2*m ∧ 1 ≤ y ∧ y < 2*n) := by
    constructor
    · rintro ⟨r, hr, h1, h2, rfl⟩
      exact ⟨h1, by omega, by omega⟩
    · rintro ⟨h1, h2, h3⟩
      exact ⟨2*n - y, by omega, h1, by omega, by omega⟩
  rw [if_congr hiff rfl rfl]

lemma put_pixel_length (c : Canvas) (frame : List ℕ) (coord : CanvasCoordinate)
    (color : Color) : (c.put_pixel frame coord color).length = frame.length := by
  unfold Canvas.put_pixel
  cases c.convert coord with
  | OffScreen => rfl
  | OnScreen x y => simp [write4]

lemma render_length (scene : Scene) (frame : List ℕ) :
    (scene.render frame).length = frame.length := by
  unfold Scene.render
  generalize scene.canvas.coords = l
  induction l generalizing frame with
  | nil => rfl
  | cons c l ih =>
    simp only [List.foldl_cons]
    rw [ih]
    exact put_pixel_length _ _ _ _

/-- C1 amended: for a scene with positive even canvas dimensions 2m×2n,
`Scene::render` iterates every canvas coordinate of
[-m, m) × [-n, n) exactly once in a deterministic row-major scan, and never
resizes the buffer; but it does not write every in-bounds screen pixel:
the write targets cover each screen pixel (x, y) with 0 ≤ x < 2m and
1 ≤ y < 2n exactly once, while screen row y = 0 is never targeted (the
canvas row y = -n converts to the off-screen row 2n and is skipped). -/
theorem render_coverage_amended (m n : ℕ) (sc : Scene) (frame : List ℕ)
    (c : CanvasCoordinate) (x y : ℕ)
    (hm : 0 < m) (hn : 0 < n) (hc : sc.canvas = ⟨2*m, 2*n⟩) :
    sc.canvas.coords.count c =
      (if -(m:ℤ) ≤ c.x ∧ c.x < m ∧ -(n:ℤ) ≤ c.y ∧ c.y < n then 1 else 0) ∧
    (sc.render frame).length = frame.length ∧
    (sc.canvas.coords.map sc.canvas.convert).count (ScreenCoordinate.OnScreen x y) =
      (if x < 2*m ∧ 1 ≤ y ∧ y < 2*n then 1 else 0) := by
  refine ⟨?_, render_length sc frame, ?_⟩
  · rw [hc, coords_eq_grid m n hm hn, count_canvas_grid]
    have hcond : (-(m:ℤ) ≤ c.x ∧ c.x < -(m:ℤ) + (2*m : ℕ) ∧
        -(n:ℤ) ≤ c.y ∧ c.y < -(n:ℤ) + (2*n : ℕ)) ↔
        (-(m:ℤ) ≤ c.x ∧ c.x < m ∧ -(n:ℤ) ≤ c.y ∧ c.y < n) := by
      constructor <;> intro h <;> (push_cast at * <;> omega)
    rw [if_congr hcond rfl rfl]
  · rw [hc, coords_eq_grid m n hm hn, count_screen_targets m n hm hn x y]

/-- Witness for C1's amended theorem at m = n = 1 (a 2×2 canvas), the
all-zero 16-byte frame, canvas coordinate (0, 0) and screen pixel (1, 1). -/
theorem render_coverage_amended_witness :
    sceneC1.canvas.coords.count ⟨0, 0⟩ =
      (if -(1:ℤ) ≤ (0:ℤ) ∧ (0:ℤ) < (1:ℤ) ∧ -(1:ℤ) ≤ (0:ℤ) ∧ (0:ℤ) < (1:ℤ) then 1 else 0) ∧
    (sceneC1.render (List.replicate 16 0)).length = (List.replicate 16 0).length ∧
    (sceneC1.canvas.coords.map sceneC1.canvas.convert).count (ScreenCoordinate.OnScreen 1 1) =
      (if 1 < 2*1 ∧ 1 ≤ 1 ∧ 1 < 2*1 then 1 else 0) :=
  render_coverage_amended 1 1 sceneC1 (List.replicate 16 0) ⟨0, 0⟩ 1 1
    (by norm_num) (by norm_num) rfl

/-- C1 counterexample: on the 2×2 scene with no spheres and background
color bytes (5,6,7,8), rendering the all-zero 16-byte frame leaves the
whole screen row y = 0 (bytes 0..7) at the sentinel 0 even though every
traced pixel color is (5,6,7,8) — the in-bounds pixels (0,0) and (1,0) are
never written, contradicting the claim that every in-bounds pixel is
written exactly once; the screen pixel (0,0) is targeted by no iterated
coordinate at all. -/
theorem render_misses_row_zero :
    sceneC1.render (List.replicate 16 0) =
      [0, 0, 0, 0, 0, 0, 0, 0, 5, 6, 7, 8, 5, 6, 7, 8] ∧
    sceneC1.background_color = ⟨5, 6, 7, 8⟩ ∧
    (sceneC1.canvas.coords.map sceneC1.canvas.convert).count
      (ScreenCoordinate.OnScreen 0 0) = 0 := by
  refine ⟨?_, rfl, ?_⟩
  · rfl
  · rfl
